import Mathlib

/-!
Verification of the async download service (`server.py`).

A shallow embedding of the two core functions of the source:
`_stop_zip` (idempotent, escalating termination of the producer process)
and `archive` (the request handler: directory resolution, producer spawn,
relay loop with rate pacing, disconnect detection, producer-failure
handling, fault handling and the `finally` finalization).

External effects (filesystem queries, chunk reads from the producer's
stdout, transport state before each write, the result of each response
write, the producer's exit code and stderr contents, `os.getpgid`, and
whether the process exits within the termination grace period) are
supplied by an environment record; the embedding is a deterministic
function of that environment.  Machine floats of the source are modelled
as rationals.
-/

namespace Server

/-! ### Process state and `_stop_zip` -/

/-- The observable state of the spawned producer process
(`asyncio.subprocess.Process`): `returncode` is `none` while the process
is running, and `pgid` is the process-group id obtained by
`os.getpgid(proc.pid)` (`none` models the `except` case where the call
raised and `pgid` was set to `None`). -/
structure ProcState where
  returncode : Option Int
  pgid : Option Int
  deriving DecidableEq, Repr

/-- Signals used by `_stop_zip`: graceful `SIGTERM`, forceful `SIGKILL`. -/
inductive Sig
  | term
  | kill
  deriving DecidableEq, Repr

/-- The externally visible actions of one `_stop_zip` invocation. -/
inductive StopAction
  /-- `os.killpg(pgid, sig)`: signal the whole process group. -/
  | killpg (pgid : Int) (s : Sig)
  /-- `proc.terminate()`: graceful signal to the single process. -/
  | termProc
  /-- `proc.kill()`: forceful signal to the single process. -/
  | killProc
  /-- `asyncio.wait_for(proc.communicate(), timeout=grace)`:
  wait (and drain the output streams) up to `grace` seconds. -/
  | waitCommTimeout (grace : ℚ)
  /-- `await proc.communicate()`: wait unconditionally for exit. -/
  | waitComm
  deriving DecidableEq, Repr

/-- Environment of one `_stop_zip` invocation: whether the process exits
within the grace period after the graceful signal, and the exit status it
ends with. -/
structure StopEnv where
  exitsWithinGrace : Bool
  exitCode : Int
  deriving DecidableEq, Repr

/-- The signalling choice of `_stop_zip`: the source computes
`pgid = os.getpgid(proc.pid)` once (or `None`) and at both signal sites
runs `if pgid and pgid > 0: os.killpg(pgid, sig) else: proc.terminate()`
(resp. `proc.kill()`). -/
def sigTo (pgid : Option Int) (s : Sig) : StopAction :=
  match pgid with
  | some g =>
      if 0 < g then StopAction.killpg g s
      else match s with
        | Sig.term => StopAction.termProc
        | Sig.kill => StopAction.killProc
  | none =>
      match s with
      | Sig.term => StopAction.termProc
      | Sig.kill => StopAction.killProc

/-- Default grace period of `_stop_zip` (`grace: float = 1.5`). -/
def graceDefault : ℚ := 3 / 2

/-- `_stop_zip(proc, grace)`: no-op if the process has already exited
(`proc.returncode is not None`); otherwise signal the group (or process)
with `SIGTERM`, wait up to `grace` seconds, and on timeout escalate to
`SIGKILL` and wait unconditionally.  Returns the list of performed
actions and the process state afterwards. -/
def stop_zip (e : StopEnv) (p : ProcState) (grace : ℚ := graceDefault) :
    List StopAction × ProcState :=
  match p.returncode with
  | some _ => ([], p)
  | none =>
      if e.exitsWithinGrace then
        ([sigTo p.pgid Sig.term, StopAction.waitCommTimeout grace],
         { p with returncode := some e.exitCode })
      else
        ([sigTo p.pgid Sig.term, StopAction.waitCommTimeout grace,
          sigTo p.pgid Sig.kill, StopAction.waitComm],
         { p with returncode := some e.exitCode })

/-! ### The `archive` handler: environment -/

/-- Outcome of one relay-loop iteration, fixing what the awaits of that
iteration did: the write succeeded; the transport was found `None` or
closing before the write; the write raised `ConnectionResetError` or
`BrokenPipeError`; or an `asyncio.CancelledError`, another `Exception`,
or another `BaseException` was raised at an await of the iteration. -/
inductive ChunkEvent
  | ok
  | transportClosed
  | writeReset
  | writePipe
  | cancelled
  | exc (msg : String)
  | baseExc (msg : String)
  deriving DecidableEq, Repr

/-- One chunk read from the producer's stdout (`proc.stdout.read(64*1024)`):
its byte length and what happened while relaying it.  A `size` of `0`
models the zero-byte read that ends the loop. -/
structure ChunkStep where
  size : Nat
  ev : ChunkEvent
  deriving DecidableEq, Repr

/-- Exceptions that can propagate out of (or through) the handler body. -/
inductive Fault
  | cancelled
  | exc (msg : String)
  | baseExc (msg : String)
  | http404 (text : String)
  | http500 (text : String)
  deriving DecidableEq, Repr

/-- Structured content of the handler's log records. -/
inductive LogEntry
  | debugChunk (size : Nat)
  | interruptedTransport (sent : Nat)
  | interruptedWrite (sent : Nat)
  | zipFailed (rc : Int) (stderr : String)
  | finished (hash : String) (total : Nat)
  | cancelledWarn (sent : Nat)
  | unhandledExc (sent : Nat) (msg : String)
  | unhandledBase (sent : Nat) (msg : String)
  deriving DecidableEq, Repr

/-- The finalization-relevant events of one handler run, in order:
`_stop_zip` invocations (with their actions), `resp.write_eof()`
attempts, the exception propagating out, or the normal return of `resp`. -/
inductive Ev
  | stop (acts : List StopAction)
  | eof
  | raised (f : Fault)
  | ret
  deriving DecidableEq, Repr

/-- Startup configuration read from the environment by the source
(`PHOTOS_PATH`, `THROTTLE_KBPS`, `LOG_ENABLED`). -/
structure Config where
  photosPath : String
  throttleKbps : ℚ
  logEnabled : Bool

/-- Environment of one `archive(request)` call: the path parameter, the
filesystem (`Path.is_dir`), the raw query parameters (`kbps` as absent /
present-but-unparseable / parsed value, and `raise`), the process-group
id of the spawned producer, the `_stop_zip` environment, the chunk
stream, the producer's exit code on a completed read loop
(`await proc.wait()`), and its stderr contents. -/
structure HandlerEnv where
  archiveHash : String
  fsIsDir : String → Bool
  queryKbps : Option (Option ℚ)
  queryRaise : Option String
  pgid : Option Int
  stopEnv : StopEnv
  steps : List ChunkStep
  rc : Int
  stderrText : String

/-- How the handler ends: normal return of the stream response, or an
exception propagating to the caller. -/
inductive Outcome
  | ret
  | raised (f : Fault)
  deriving DecidableEq, Repr

/-- The observable result of one handler run. -/
structure HandlerResult where
  outcome : Outcome
  /-- Final value of the `total` byte counter. -/
  total : Nat
  /-- The pacing pauses performed, in seconds, in order. -/
  sleeps : List ℚ
  /-- Sizes of the chunks successfully written to the response, in order. -/
  written : List Nat
  logs : List LogEntry
  /-- Finalization events in order (see `Ev`). -/
  trace : List Ev
  /-- Final producer-process state; `none` if no producer was spawned. -/
  proc : Option ProcState
  /-- Working directory the producer was spawned with
  (`cwd=str(target_dir)`); `none` if no producer was spawned. -/
  cwd : Option String
  /-- Plain-text body of an HTTP error response, when the outcome is one. -/
  respText : Option String
  deriving DecidableEq, Repr

/-! ### The `archive` handler: definition -/

/-- `PHOTOS_PATH / archive_hash`: `pathlib` joining of the root with a
single path segment. -/
def joinPath (root seg : String) : String := root ++ "/" ++ seg

/-- Body text of the `HTTPNotFound` response. -/
def notFoundText : String := "Архив не существует или был удалён"

/-- Body text of the `HTTPInternalServerError` response. -/
def serverErrText : String := "Ошибка архивации"

/-- Effective `kbps`: the static default, overridden by the `kbps` query
parameter when present; `float(...)` raising `ValueError` falls back to
the default. -/
def effectiveKbps (dflt : ℚ) (q : Option (Option ℚ)) : ℚ :=
  match q with
  | none => dflt
  | some none => dflt
  | some (some v) => v

/-- The injected fault, from the `raise` query parameter:
`"index"` raises `IndexError` (an `Exception`), `"systemexit"` raises
`SystemExit` (a `BaseException` that is not an `Exception`). -/
def injected (q : Option String) : Option Fault :=
  match q with
  | some "index" => some (Fault.exc "Injected IndexError for testing")
  | some "systemexit" => some (Fault.baseExc "Injected SystemExit for testing")
  | _ => none

/-- Accumulator of the relay loop: byte counter, pacing pauses, chunks
written, log records. -/
structure LoopSt where
  total : Nat
  sleeps : List ℚ
  written : List Nat
  logs : List LogEntry
  deriving DecidableEq, Repr

def LoopSt.init : LoopSt := ⟨0, [], [], []⟩

/-- How the relay loop ended: zero-byte read (normal completion), early
return on client disconnect, or a fault raised out of the loop. -/
inductive LoopExit
  | done
  | disconnected
  | fault (f : Fault)
  deriving DecidableEq, Repr

def logIf (enabled : Bool) (e : LogEntry) : List LogEntry :=
  if enabled then [e] else []

/-- The part of a loop iteration that precedes the transport check and
the write: `total += len(chunk)`, the debug log, and the pacing pause
`await asyncio.sleep(len(chunk) / (kbps * 1024.0))` when `kbps > 0`. -/
def stepPre (logOn : Bool) (kbps : ℚ) (n : Nat) (st : LoopSt) : LoopSt :=
  { st with
    total := st.total + n
    logs := st.logs ++ logIf logOn (LogEntry.debugChunk n)
    sleeps := st.sleeps ++ (if 0 < kbps then [(n : ℚ) / (kbps * 1024)] else []) }

/-- A fully successful iteration: the pre-write part followed by the
successful write (`await resp.write(chunk)`). -/
def okStep (logOn : Bool) (kbps : ℚ) (st : LoopSt) (s : ChunkStep) : LoopSt :=
  let st1 := stepPre logOn kbps s.size st
  { st1 with written := st1.written ++ [s.size] }

/-- The relay loop (`while True: chunk = await proc.stdout.read(...)`).
Faults of an iteration are modelled as raised at its read, before the
counter update. -/
def runLoop (logOn : Bool) (kbps : ℚ) : List ChunkStep → LoopSt → LoopSt × LoopExit
  | [], st => (st, LoopExit.done)
  | s :: rest, st =>
      if s.size = 0 then (st, LoopExit.done)
      else
        match s.ev with
        | ChunkEvent.cancelled => (st, LoopExit.fault Fault.cancelled)
        | ChunkEvent.exc m => (st, LoopExit.fault (Fault.exc m))
        | ChunkEvent.baseExc m => (st, LoopExit.fault (Fault.baseExc m))
        | ChunkEvent.transportClosed =>
            let st1 := stepPre logOn kbps s.size st
            ({ st1 with
               logs := st1.logs ++ logIf logOn (LogEntry.interruptedTransport st1.total) },
             LoopExit.disconnected)
        | ChunkEvent.writeReset =>
            let st1 := stepPre logOn kbps s.size st
            ({ st1 with
               logs := st1.logs ++ logIf logOn (LogEntry.interruptedWrite st1.total) },
             LoopExit.disconnected)
        | ChunkEvent.writePipe =>
            let st1 := stepPre logOn kbps s.size st
            ({ st1 with
               logs := st1.logs ++ logIf logOn (LogEntry.interruptedWrite st1.total) },
             LoopExit.disconnected)
        | ChunkEvent.ok =>
            runLoop logOn kbps rest (okStep logOn kbps st s)

/-- Result of the `try` body together with its `except` clauses, before
the `finally` block runs: loop state, the stop/eof events performed so
far, whether an exception is propagating, and the process state. -/
structure TryOut where
  st : LoopSt
  preEvs : List Ev
  exit : Option Fault
  proc : ProcState

/-- The log record of the `except` clause catching fault `f`:
`asyncio.CancelledError` is logged by the first clause, any other
`Exception` (including the `HTTPInternalServerError` raised by the
producer-failure branch) by the second, and any other `BaseException`
(such as the injected `SystemExit`) by the third. -/
def faultLog (f : Fault) (sent : Nat) : LogEntry :=
  match f with
  | Fault.cancelled => LogEntry.cancelledWarn sent
  | Fault.exc m => LogEntry.unhandledExc sent m
  | Fault.http404 t => LogEntry.unhandledExc sent t
  | Fault.http500 t => LogEntry.unhandledExc sent t
  | Fault.baseExc m => LogEntry.unhandledBase sent m

/-- The three `except` clauses: `asyncio.CancelledError`, `Exception`,
`BaseException` — each logs, awaits `_stop_zip(proc)`, and re-raises. -/
def handleFault (logOn : Bool) (se : StopEnv) (f : Fault) (st : LoopSt)
    (p : ProcState) : TryOut :=
  let sp := stop_zip se p
  { st := { st with logs := st.logs ++ logIf logOn (faultLog f st.total) }
    preEvs := [Ev.stop sp.1]
    exit := some f
    proc := sp.2 }

/-- The `try` body of the handler: injected faults, the relay loop, and
on normal loop completion `rc = await proc.wait()` with the
producer-failure branch (`raise web.HTTPInternalServerError`, which — an
`Exception` — is then caught by the `except Exception` clause) or the
success branch (`await resp.write_eof()`; return). -/
def tryBody (cfg : Config) (env : HandlerEnv) (kbps : ℚ) (p0 : ProcState) : TryOut :=
  match injected env.queryRaise with
  | some f => handleFault cfg.logEnabled env.stopEnv f LoopSt.init p0
  | none =>
      let r := runLoop cfg.logEnabled kbps env.steps LoopSt.init
      match r.2 with
      | LoopExit.disconnected =>
          let sp := stop_zip env.stopEnv p0
          { st := r.1, preEvs := [Ev.stop sp.1], exit := none, proc := sp.2 }
      | LoopExit.fault f => handleFault cfg.logEnabled env.stopEnv f r.1 p0
      | LoopExit.done =>
          let p1 : ProcState := { p0 with returncode := some env.rc }
          if env.rc ≠ 0 then
            let st1 := { r.1 with
              logs := r.1.logs ++
                logIf cfg.logEnabled (LogEntry.zipFailed env.rc env.stderrText) }
            let sp := stop_zip env.stopEnv p1
            let t := handleFault cfg.logEnabled env.stopEnv
              (Fault.http500 serverErrText) st1 sp.2
            { t with preEvs := Ev.stop sp.1 :: t.preEvs }
          else
            { st := { r.1 with
                logs := r.1.logs ++
                  logIf cfg.logEnabled (LogEntry.finished env.archiveHash r.1.total) }
              preEvs := [Ev.eof]
              exit := none
              proc := p1 }

/-- Response body text of the exception reaching the caller, if it is an
HTTP error response. -/
def respTextOf : Option Fault → Option String
  | some (Fault.http404 t) => some t
  | some (Fault.http500 t) => some t
  | _ => none

/-- The `archive(request)` handler.  The `finally` block
(`with contextlib.suppress(Exception): await resp.write_eof()` and
likewise `await _stop_zip(proc)`) runs on every path of the `try`. -/
def archive (cfg : Config) (env : HandlerEnv) : HandlerResult :=
  let target := joinPath cfg.photosPath env.archiveHash
  if env.fsIsDir target then
    let p0 : ProcState := { returncode := none, pgid := env.pgid }
    let kbps := effectiveKbps cfg.throttleKbps env.queryKbps
    let t := tryBody cfg env kbps p0
    let fsp := stop_zip env.stopEnv t.proc
    let finEvs := [Ev.eof, Ev.stop fsp.1]
    let lastEv := match t.exit with
      | none => Ev.ret
      | some f => Ev.raised f
    { outcome := match t.exit with
        | none => Outcome.ret
        | some f => Outcome.raised f
      total := t.st.total
      sleeps := t.st.sleeps
      written := t.st.written
      logs := t.st.logs
      trace := t.preEvs ++ finEvs ++ [lastEv]
      proc := some fsp.2
      cwd := some target
      respText := respTextOf t.exit }
  else
    -- `raise web.HTTPNotFound(...)` happens before the producer is
    -- spawned and before the `try`/`finally`.
    { outcome := Outcome.raised (Fault.http404 notFoundText)
      total := 0
      sleeps := []
      written := []
      logs := []
      trace := [Ev.raised (Fault.http404 notFoundText)]
      proc := none
      cwd := none
      respText := some notFoundText }

/-! ### Helper definitions for the statements -/

/-- Chunk events the handler treats as a client disconnect: the transport
found `None`/closing before the write, or the write raising
`ConnectionResetError` or `BrokenPipeError`. -/
def isDisconnect (e : ChunkEvent) : Prop :=
  e = ChunkEvent.transportClosed ∨ e = ChunkEvent.writeReset ∨ e = ChunkEvent.writePipe

/-- The fault raised by a faulting loop iteration, if any. -/
def faultOf : ChunkEvent → Option Fault
  | ChunkEvent.cancelled => some Fault.cancelled
  | ChunkEvent.exc m => some (Fault.exc m)
  | ChunkEvent.baseExc m => some (Fault.baseExc m)
  | _ => none

/-- Everything observable about a handler run except its log records. -/
def core (r : HandlerResult) :
    Outcome × Nat × List ℚ × List Nat × List Ev × Option ProcState ×
      Option String × Option String :=
  (r.outcome, r.total, r.sleeps, r.written, r.trace, r.proc, r.cwd, r.respText)

def matchesAt : List Char → List Char → Bool
  | [], _ => true
  | _ :: _, [] => false
  | p :: ps, h :: hs => (p == h) && matchesAt ps hs

/-- `pat` occurs as a contiguous substring. -/
def hasSubstring (pat : List Char) : List Char → Bool
  | [] => matchesAt pat []
  | h :: t => matchesAt pat (h :: t) || hasSubstring pat t

/-- The `try` body of a run that got past the resolver, at the process
state and effective rate the handler spawns with. -/
def spawnTry (cfg : Config) (env : HandlerEnv) : TryOut :=
  tryBody cfg env (effectiveKbps cfg.throttleKbps env.queryKbps)
    { returncode := none, pgid := env.pgid }

/-- Loop state after a run of the relay loop in which every chunk was
relayed successfully. -/
def okLoopSt (cfg : Config) (env : HandlerEnv) : LoopSt :=
  env.steps.foldl
    (okStep cfg.logEnabled (effectiveKbps cfg.throttleKbps env.queryKbps))
    LoopSt.init

/-- A sample startup configuration (photos root, no static throttle,
logging enabled). -/
def cfg0 : Config := { photosPath := "/srv/photos", throttleKbps := 0, logEnabled := true }

/-- A sample request environment: existing directory, no query
parameters, producer in process group 7, three-byte archive delivered in
one chunk, exit code 0. -/
def env0 : HandlerEnv :=
  { archiveHash := "abc123"
    fsIsDir := fun _ => true
    queryKbps := none
    queryRaise := none
    pgid := some 7
    stopEnv := { exitsWithinGrace := true, exitCode := -15 }
    steps := [ChunkStep.mk 3 ChunkEvent.ok]
    rc := 0
    stderrText := "" }

/-- A run whose single five-byte chunk finds the transport closing. -/
def envDisc : HandlerEnv := { env0 with steps := [ChunkStep.mk 5 ChunkEvent.transportClosed] }

/-- A run whose producer exits with code 12 and stderr `"boom"` after a
four-byte chunk is relayed. -/
def envZipFail : HandlerEnv :=
  { env0 with steps := [ChunkStep.mk 4 ChunkEvent.ok], rc := 12, stderrText := "boom" }

/-- A request for an identifier that does not resolve to a directory. -/
def envNF : HandlerEnv := { env0 with fsIsDir := fun _ => false }

/-- A request whose identifier is the traversal segment `".."`, on a
filesystem where the joined path (outside the archive root) is an
existing directory. -/
def envDotDot : HandlerEnv :=
  { env0 with archiveHash := "..", fsIsDir := fun s => s == "/srv/photos/.." }

/-- A run with an injected `IndexError` (`?raise=index`). -/
def envInj : HandlerEnv := { env0 with queryRaise := some "index" }

/-- A run with a `kbps=8` override and one full 64 KiB chunk. -/
def envKbps : HandlerEnv :=
  { env0 with queryKbps := some (some 8), steps := [ChunkStep.mk 65536 ChunkEvent.ok] }

/-- A run with one successful three-byte chunk followed by a five-byte
chunk whose write fails with a reset connection. -/
def envPartial : HandlerEnv :=
  { env0 with steps := [ChunkStep.mk 3 ChunkEvent.ok, ChunkStep.mk 5 ChunkEvent.writeReset] }

/-! ### Lemmas about `_stop_zip` -/

lemma stop_zip_post_isSome (e : StopEnv) (p : ProcState) (g : ℚ) :
    ((stop_zip e p g).2).returncode.isSome := by
  cases hp : p.returncode with
  | some r => simp [stop_zip, hp]
  | none => by_cases he : e.exitsWithinGrace <;> simp [stop_zip, hp, he]

lemma stop_zip_exited (e : StopEnv) (p : ProcState) (g : ℚ)
    (h : p.returncode.isSome) : stop_zip e p g = ([], p) := by
  obtain ⟨r, hr⟩ := Option.isSome_iff_exists.mp h
  simp [stop_zip, hr]

lemma stop_zip_twice (e e' : StopEnv) (p : ProcState) (g g' : ℚ) :
    stop_zip e' (stop_zip e p g).2 g' = ([], (stop_zip e p g).2) :=
  stop_zip_exited _ _ _ (stop_zip_post_isSome e p g)

lemma stop_zip_running_acts (e : StopEnv) (p : ProcState) (g : ℚ)
    (h : p.returncode = none) :
    (stop_zip e p g).1 = sigTo p.pgid Sig.term :: StopAction.waitCommTimeout g ::
      (if e.exitsWithinGrace then [] else [sigTo p.pgid Sig.kill, StopAction.waitComm]) := by
  by_cases he : e.exitsWithinGrace <;> simp [stop_zip, h, he]

lemma stop_zip_running_post (e : StopEnv) (p : ProcState) (g : ℚ)
    (h : p.returncode = none) :
    (stop_zip e p g).2 = { p with returncode := some e.exitCode } := by
  by_cases he : e.exitsWithinGrace <;> simp [stop_zip, h, he]

/-! ### Lemmas about the relay loop -/

lemma runLoop_nil (lg : Bool) (k : ℚ) (st : LoopSt) :
    runLoop lg k [] st = (st, LoopExit.done) := rfl

lemma runLoop_ok_cons (lg : Bool) (k : ℚ) (s : ChunkStep) (rest : List ChunkStep)
    (st : LoopSt) (hev : s.ev = ChunkEvent.ok) (hn : 0 < s.size) :
    runLoop lg k (s :: rest) st = runLoop lg k rest (okStep lg k st s) := by
  have hnz : ¬ s.size = 0 := Nat.pos_iff_ne_zero.mp hn
  simp [runLoop, hnz, hev]

lemma runLoop_all_ok (lg : Bool) (k : ℚ) (pre l : List ChunkStep) (st : LoopSt)
    (h : ∀ s ∈ pre, s.ev = ChunkEvent.ok ∧ 0 < s.size) :
    runLoop lg k (pre ++ l) st = runLoop lg k l (pre.foldl (okStep lg k) st) := by
  induction pre generalizing st with
  | nil => simp
  | cons s pre ih =>
      obtain ⟨hev, hn⟩ := h s (by simp)
      have h' : ∀ t ∈ pre, t.ev = ChunkEvent.ok ∧ 0 < t.size :=
        fun t ht => h t (by simp [ht])
      rw [List.cons_append, runLoop_ok_cons lg k s _ st hev hn, ih _ h',
        List.foldl_cons]

lemma runLoop_all_ok_done (lg : Bool) (k : ℚ) (steps : List ChunkStep) (st : LoopSt)
    (h : ∀ s ∈ steps, s.ev = ChunkEvent.ok ∧ 0 < s.size) :
    runLoop lg k steps st = (steps.foldl (okStep lg k) st, LoopExit.done) := by
  have h2 := runLoop_all_ok lg k steps [] st h
  simpa using h2

lemma runLoop_disc_cons (lg : Bool) (k : ℚ) (n : Nat) (e : ChunkEvent)
    (rest : List ChunkStep) (st : LoopSt) (hn : 0 < n) (he : isDisconnect e) :
    ∃ lgs, runLoop lg k (ChunkStep.mk n e :: rest) st =
      ({ stepPre lg k n st with logs := lgs }, LoopExit.disconnected) := by
  have hnz : ¬ n = 0 := Nat.pos_iff_ne_zero.mp hn
  rcases he with h | h | h <;> subst h
  · exact ⟨(stepPre lg k n st).logs ++
      logIf lg (LogEntry.interruptedTransport (stepPre lg k n st).total),
      by simp [runLoop, hnz]⟩
  · exact ⟨(stepPre lg k n st).logs ++
      logIf lg (LogEntry.interruptedWrite (stepPre lg k n st).total),
      by simp [runLoop, hnz]⟩
  · exact ⟨(stepPre lg k n st).logs ++
      logIf lg (LogEntry.interruptedWrite (stepPre lg k n st).total),
      by simp [runLoop, hnz]⟩

lemma runLoop_fault_cons (lg : Bool) (k : ℚ) (n : Nat) (e : ChunkEvent)
    (rest : List ChunkStep) (st : LoopSt) (f : Fault)
    (hn : 0 < n) (hf : faultOf e = some f) :
    runLoop lg k (ChunkStep.mk n e :: rest) st = (st, LoopExit.fault f) := by
  have hnz : ¬ n = 0 := Nat.pos_iff_ne_zero.mp hn
  cases e with
  | ok => simp [faultOf] at hf
  | transportClosed => simp [faultOf] at hf
  | writeReset => simp [faultOf] at hf
  | writePipe => simp [faultOf] at hf
  | cancelled =>
      simp only [faultOf, Option.some.injEq] at hf
      subst hf; simp [runLoop, hnz]
  | exc m =>
      simp only [faultOf, Option.some.injEq] at hf
      subst hf; simp [runLoop, hnz]
  | baseExc m =>
      simp only [faultOf, Option.some.injEq] at hf
      subst hf; simp [runLoop, hnz]

lemma foldl_okStep_total (lg : Bool) (k : ℚ) (pre : List ChunkStep) (st : LoopSt) :
    (pre.foldl (okStep lg k) st).total = st.total + (pre.map ChunkStep.size).sum := by
  induction pre generalizing st with
  | nil => simp
  | cons s pre ih =>
      rw [List.foldl_cons, ih]
      simp [okStep, stepPre]
      omega

lemma foldl_okStep_written (lg : Bool) (k : ℚ) (pre : List ChunkStep) (st : LoopSt) :
    (pre.foldl (okStep lg k) st).written = st.written ++ pre.map ChunkStep.size := by
  induction pre generalizing st with
  | nil => simp
  | cons s pre ih =>
      rw [List.foldl_cons, ih]
      simp [okStep, stepPre]

lemma foldl_okStep_sleeps (lg : Bool) (k : ℚ) (pre : List ChunkStep) (st : LoopSt) :
    (pre.foldl (okStep lg k) st).sleeps = st.sleeps ++
      (if 0 < k then pre.map (fun s => (s.size : ℚ) / (k * 1024)) else []) := by
  induction pre generalizing st with
  | nil => simp
  | cons s pre ih =>
      rw [List.foldl_cons, ih]
      by_cases hk : 0 < k <;> simp [okStep, stepPre, hk]

/-! ### Lemmas about the handler -/

lemma tryBody_proc_isSome (cfg : Config) (env : HandlerEnv) (k : ℚ) (p0 : ProcState) :
    ((tryBody cfg env k p0).proc).returncode.isSome := by
  cases hinj : injected env.queryRaise with
  | some f => simp [tryBody, hinj, handleFault, stop_zip_post_isSome]
  | none =>
      cases hr : (runLoop cfg.logEnabled k env.steps LoopSt.init).2 with
      | disconnected => simp [tryBody, hinj, hr, stop_zip_post_isSome]
      | fault f => simp [tryBody, hinj, hr, handleFault, stop_zip_post_isSome]
      | done =>
          by_cases hrc : env.rc = 0
          · simp [tryBody, hinj, hr, hrc]
          · simp [tryBody, hinj, hr, hrc, handleFault, stop_zip_post_isSome]

lemma archive_spawn (cfg : Config) (env : HandlerEnv)
    (hdir : env.fsIsDir (joinPath cfg.photosPath env.archiveHash) = true) :
    archive cfg env =
      { outcome := match (spawnTry cfg env).exit with
          | none => Outcome.ret
          | some f => Outcome.raised f
        total := (spawnTry cfg env).st.total
        sleeps := (spawnTry cfg env).st.sleeps
        written := (spawnTry cfg env).st.written
        logs := (spawnTry cfg env).st.logs
        trace := (spawnTry cfg env).preEvs ++ [Ev.eof, Ev.stop [],
          match (spawnTry cfg env).exit with
          | none => Ev.ret
          | some f => Ev.raised f]
        proc := some (spawnTry cfg env).proc
        cwd := some (joinPath cfg.photosPath env.archiveHash)
        respText := respTextOf (spawnTry cfg env).exit } := by
  have hfin := stop_zip_exited env.stopEnv (spawnTry cfg env).proc graceDefault
    (tryBody_proc_isSome cfg env (effectiveKbps cfg.throttleKbps env.queryKbps) _)
  simp only [spawnTry] at hfin
  simp [archive, hdir, spawnTry, hfin]

lemma archive_notFound (cfg : Config) (env : HandlerEnv)
    (hdir : env.fsIsDir (joinPath cfg.photosPath env.archiveHash) = false) :
    archive cfg env =
      { outcome := Outcome.raised (Fault.http404 notFoundText)
        total := 0
        sleeps := []
        written := []
        logs := []
        trace := [Ev.raised (Fault.http404 notFoundText)]
        proc := none
        cwd := none
        respText := some notFoundText } := by
  simp [archive, hdir]

lemma spawnTry_injected (cfg : Config) (env : HandlerEnv) (f : Fault)
    (hinj : injected env.queryRaise = some f) :
    spawnTry cfg env =
      handleFault cfg.logEnabled env.stopEnv f LoopSt.init
        { returncode := none, pgid := env.pgid } := by
  simp [spawnTry, tryBody, hinj]

lemma spawnTry_success (cfg : Config) (env : HandlerEnv)
    (hinj : injected env.queryRaise = none)
    (hok : ∀ s ∈ env.steps, s.ev = ChunkEvent.ok ∧ 0 < s.size)
    (hrc : env.rc = 0) :
    spawnTry cfg env =
      { st := { okLoopSt cfg env with
          logs := (okLoopSt cfg env).logs ++
            logIf cfg.logEnabled (LogEntry.finished env.archiveHash (okLoopSt cfg env).total) }
        preEvs := [Ev.eof]
        exit := none
        proc := { returncode := some env.rc, pgid := env.pgid } } := by
  have hr := runLoop_all_ok_done cfg.logEnabled
    (effectiveKbps cfg.throttleKbps env.queryKbps) env.steps LoopSt.init hok
  simp [spawnTry, tryBody, hinj, hr, hrc, okLoopSt]

lemma spawnTry_zipfail (cfg : Config) (env : HandlerEnv)
    (hinj : injected env.queryRaise = none)
    (hok : ∀ s ∈ env.steps, s.ev = ChunkEvent.ok ∧ 0 < s.size)
    (hrc : ¬ env.rc = 0) :
    spawnTry cfg env =
      { st := { okLoopSt cfg env with
          logs := (okLoopSt cfg env).logs ++
            logIf cfg.logEnabled (LogEntry.zipFailed env.rc env.stderrText) ++
            logIf cfg.logEnabled (faultLog (Fault.http500 serverErrText) (okLoopSt cfg env).total) }
        preEvs := [Ev.stop [], Ev.stop []]
        exit := some (Fault.http500 serverErrText)
        proc := { returncode := some env.rc, pgid := env.pgid } } := by
  have hr := runLoop_all_ok_done cfg.logEnabled
    (effectiveKbps cfg.throttleKbps env.queryKbps) env.steps LoopSt.init hok
  have hstop : stop_zip env.stopEnv { returncode := some env.rc, pgid := env.pgid } graceDefault
      = ([], { returncode := some env.rc, pgid := env.pgid }) :=
    stop_zip_exited _ _ _ (by simp)
  simp [spawnTry, tryBody, hinj, hr, hrc, handleFault, hstop, okLoopSt]

lemma spawnTry_disc (cfg : Config) (env : HandlerEnv) (pre : List ChunkStep)
    (n : Nat) (e : ChunkEvent) (rest : List ChunkStep)
    (hinj : injected env.queryRaise = none)
    (hpre : ∀ s ∈ pre, s.ev = ChunkEvent.ok ∧ 0 < s.size)
    (hn : 0 < n) (he : isDisconnect e)
    (hsteps : env.steps = pre ++ ChunkStep.mk n e :: rest) :
    ∃ lgs, spawnTry cfg env =
      { st := { stepPre cfg.logEnabled (effectiveKbps cfg.throttleKbps env.queryKbps) n
            (pre.foldl (okStep cfg.logEnabled (effectiveKbps cfg.throttleKbps env.queryKbps))
              LoopSt.init) with logs := lgs }
        preEvs := [Ev.stop (stop_zip env.stopEnv { returncode := none, pgid := env.pgid }).1]
        exit := none
        proc := (stop_zip env.stopEnv { returncode := none, pgid := env.pgid }).2 } := by
  obtain ⟨lgs, hr⟩ := runLoop_disc_cons cfg.logEnabled
    (effectiveKbps cfg.throttleKbps env.queryKbps) n e rest
    (pre.foldl (okStep cfg.logEnabled (effectiveKbps cfg.throttleKbps env.queryKbps))
      LoopSt.init) hn he
  have hall := runLoop_all_ok cfg.logEnabled
    (effectiveKbps cfg.throttleKbps env.queryKbps) pre (ChunkStep.mk n e :: rest)
    LoopSt.init hpre
  have hrun : runLoop cfg.logEnabled (effectiveKbps cfg.throttleKbps env.queryKbps)
      env.steps LoopSt.init =
      ({ stepPre cfg.logEnabled (effectiveKbps cfg.throttleKbps env.queryKbps) n
          (pre.foldl (okStep cfg.logEnabled (effectiveKbps cfg.throttleKbps env.queryKbps))
            LoopSt.init) with logs := lgs }, LoopExit.disconnected) := by
    rw [hsteps, hall, hr]
  exact ⟨lgs, by simp [spawnTry, tryBody, hinj, hrun]⟩

lemma spawnTry_loopFault (cfg : Config) (env : HandlerEnv) (pre : List ChunkStep)
    (n : Nat) (e : ChunkEvent) (rest : List ChunkStep) (f : Fault)
    (hinj : injected env.queryRaise = none)
    (hpre : ∀ s ∈ pre, s.ev = ChunkEvent.ok ∧ 0 < s.size)
    (hn : 0 < n) (hf : faultOf e = some f)
    (hsteps : env.steps = pre ++ ChunkStep.mk n e :: rest) :
    spawnTry cfg env =
      handleFault cfg.logEnabled env.stopEnv f
        (pre.foldl (okStep cfg.logEnabled (effectiveKbps cfg.throttleKbps env.queryKbps))
          LoopSt.init)
        { returncode := none, pgid := env.pgid } := by
  have hr := runLoop_fault_cons cfg.logEnabled
    (effectiveKbps cfg.throttleKbps env.queryKbps) n e rest
    (pre.foldl (okStep cfg.logEnabled (effectiveKbps cfg.throttleKbps env.queryKbps))
      LoopSt.init) f hn hf
  have hall := runLoop_all_ok cfg.logEnabled
    (effectiveKbps cfg.throttleKbps env.queryKbps) pre (ChunkStep.mk n e :: rest)
    LoopSt.init hpre
  have hrun : runLoop cfg.logEnabled (effectiveKbps cfg.throttleKbps env.queryKbps)
      env.steps LoopSt.init =
      (pre.foldl (okStep cfg.logEnabled (effectiveKbps cfg.throttleKbps env.queryKbps))
        LoopSt.init, LoopExit.fault f) := by
    rw [hsteps, hall, hr]
  simp [spawnTry, tryBody, hinj, hrun]

/-! ### Claim theorems -/

/-- C1: on every exit path of the handler, a finalization step runs that
closes the response (`write_eof` attempt) and stops the producer; the
producer process is never left running past the end of the request: when
a producer was spawned, its final state has an exit status, and when none
was (the NotFound path), the handler ended before any process existed. -/
theorem C1_finalization (cfg : Config) (env : HandlerEnv) :
    ((archive cfg env).proc = none ∧
      (archive cfg env).outcome = Outcome.raised (Fault.http404 notFoundText)) ∨
    (∃ p, (archive cfg env).proc = some p ∧ p.returncode.isSome = true ∧
      Ev.eof ∈ (archive cfg env).trace ∧ ∃ a, Ev.stop a ∈ (archive cfg env).trace) := by
  cases hdir : env.fsIsDir (joinPath cfg.photosPath env.archiveHash) with
  | false =>
      left
      rw [archive_notFound cfg env hdir]
      exact ⟨rfl, rfl⟩
  | true =>
      right
      rw [archive_spawn cfg env hdir]
      refine ⟨(spawnTry cfg env).proc, rfl,
        tryBody_proc_isSome cfg env (effectiveKbps cfg.throttleKbps env.queryKbps) _,
        ?_, ⟨[], ?_⟩⟩
      · simp
      · simp

/-- C5: an identifier whose joined path is not an existing directory
yields the 404 response and no producer is spawned; otherwise the
resolver hands the joined path, unchanged, to the producer spawn. -/
theorem C5_resolver (cfg : Config) (env : HandlerEnv) :
    (env.fsIsDir (joinPath cfg.photosPath env.archiveHash) = false →
      (archive cfg env).outcome = Outcome.raised (Fault.http404 notFoundText) ∧
      (archive cfg env).respText = some notFoundText ∧
      (archive cfg env).proc = none ∧ (archive cfg env).cwd = none) ∧
    (env.fsIsDir (joinPath cfg.photosPath env.archiveHash) = true →
      (archive cfg env).cwd = some (joinPath cfg.photosPath env.archiveHash)) := by
  constructor
  · intro h
    rw [archive_notFound cfg env h]
    exact ⟨rfl, rfl, rfl, rfl⟩
  · intro h
    rw [archive_spawn cfg env h]

/-- Witness for C5 at a request whose identifier does not resolve. -/
theorem C5_witness :
    (archive cfg0 envNF).outcome = Outcome.raised (Fault.http404 notFoundText) ∧
    (archive cfg0 envNF).respText = some notFoundText ∧
    (archive cfg0 envNF).proc = none ∧ (archive cfg0 envNF).cwd = none :=
  (C5_resolver cfg0 envNF).1 rfl

/-- C7: on a still-running producer, `_stop_zip` sends a graceful
termination signal to the whole process group (or to the single process
when no usable group id is available), waits up to the 1.5-second grace
period for exit and stream drain, and on timeout escalates to a forceful
kill of the group (or process) and waits unconditionally. -/
theorem C7_stop_escalation (e : StopEnv) (p : ProcState)
    (hrun : p.returncode = none) :
    ∃ graceful forceful,
      ((∃ g, p.pgid = some g ∧ 0 < g ∧
          graceful = StopAction.killpg g Sig.term ∧
          forceful = StopAction.killpg g Sig.kill) ∨
        ((p.pgid = none ∨ ∃ g, p.pgid = some g ∧ ¬ 0 < g) ∧
          graceful = StopAction.termProc ∧ forceful = StopAction.killProc)) ∧
      (stop_zip e p).1 = graceful :: StopAction.waitCommTimeout (3 / 2) ::
        (if e.exitsWithinGrace then [] else [forceful, StopAction.waitComm]) ∧
      ((stop_zip e p).2).returncode = some e.exitCode := by
  refine ⟨sigTo p.pgid Sig.term, sigTo p.pgid Sig.kill, ?_, ?_, ?_⟩
  · cases hp : p.pgid with
    | none => exact Or.inr ⟨Or.inl rfl, rfl, rfl⟩
    | some g =>
        by_cases hg : 0 < g
        · exact Or.inl ⟨g, rfl, hg, by simp [sigTo, hg], by simp [sigTo, hg]⟩
        · exact Or.inr ⟨Or.inr ⟨g, rfl, hg⟩, by simp [sigTo, hg], by simp [sigTo, hg]⟩
  · simpa [graceDefault] using stop_zip_running_acts e p graceDefault hrun
  · rw [stop_zip_running_post e p graceDefault hrun]

/-- Witness for C7: a running process with no usable group id and a
producer that does not exit within the grace period. -/
theorem C7_witness :
    (stop_zip { exitsWithinGrace := false, exitCode := -9 }
        { returncode := none, pgid := none }).1 =
      [StopAction.termProc, StopAction.waitCommTimeout (3 / 2),
        StopAction.killProc, StopAction.waitComm] := by
  obtain ⟨gs, fs, hcase, hacts, -⟩ := C7_stop_escalation
    { exitsWithinGrace := false, exitCode := -9 }
    { returncode := none, pgid := none } rfl
  rcases hcase with ⟨g, hg, -⟩ | ⟨-, hgs, hfs⟩
  · exact absurd hg (by simp)
  · rw [hacts, hgs, hfs]
    simp

/-- C8: the process-stop operation is idempotent: on a process whose exit
status is present it is a no-op, and a second invocation after any first
one performs no actions and leaves the state unchanged. -/
theorem C8_stop_idempotent (e e' : StopEnv) (p : ProcState) (g g' : ℚ) :
    (p.returncode.isSome = true → stop_zip e p g = ([], p)) ∧
    stop_zip e' (stop_zip e p g).2 g' = ([], (stop_zip e p g).2) :=
  ⟨fun h => stop_zip_exited e p g h, stop_zip_twice e e' p g g'⟩

/-- Witness for C8 at a concrete already-exited process. -/
theorem C8_witness :
    stop_zip { exitsWithinGrace := true, exitCode := 0 }
        { returncode := some 0, pgid := some 3 } graceDefault =
      ([], { returncode := some 0, pgid := some 3 }) :=
  (C8_stop_idempotent { exitsWithinGrace := true, exitCode := 0 }
    { exitsWithinGrace := false, exitCode := 1 }
    { returncode := some 0, pgid := some 3 } graceDefault graceDefault).1 (by decide)

/-- C10: the resolver applies no sanitization or containment check: for
any identifier (including `".."`) whose joined path the filesystem
reports as an existing directory, the producer is spawned with exactly
that joined path as its working directory. -/
theorem C10_no_sanitization (cfg : Config) (env : HandlerEnv)
    (hdir : env.fsIsDir (joinPath cfg.photosPath env.archiveHash) = true) :
    (archive cfg env).cwd = some (cfg.photosPath ++ "/" ++ env.archiveHash) ∧
    (archive cfg env).proc.isSome = true := by
  rw [archive_spawn cfg env hdir]
  exact ⟨rfl, rfl⟩

/-- Witness for C10: the identifier `".."` joins to a path outside the
archive root and still spawns the producer there. -/
theorem C10_witness :
    (archive cfg0 envDotDot).cwd = some "/srv/photos/.." ∧
    (archive cfg0 envDotDot).proc.isSome = true := by
  have h := C10_no_sanitization cfg0 envDotDot (by decide)
  refine ⟨?_, h.2⟩
  rw [h.1]
  rfl

/-- C2 counterexample: on a producer failure (exit code 12, stderr
`"boom"`) the 500 response's diagnostic text is the fixed string
`"Ошибка архивации"`, which does not contain the producer's error
output — refuting the claim that the response's diagnostic contains it. -/
theorem C2_counterexample :
    (archive cfg0 envZipFail).outcome = Outcome.raised (Fault.http500 serverErrText) ∧
    (archive cfg0 envZipFail).respText = some serverErrText ∧
    hasSubstring envZipFail.stderrText.data serverErrText.data = false := by
  refine ⟨?_, ?_, by decide⟩ <;> decide

/-- C2 (amended): when the read loop ends with a zero-byte read and the
exit code is non-zero, the handler drains stderr into a logged
diagnostic, tears down the (already exited) process, and raises an
internal-failure (500) response with a fixed plain-text body; the
producer's error output appears in the logged diagnostic, not in the
response. -/
theorem C2_producer_failure (cfg : Config) (env : HandlerEnv)
    (hdir : env.fsIsDir (joinPath cfg.photosPath env.archiveHash) = true)
    (hinj : injected env.queryRaise = none)
    (hok : ∀ s ∈ env.steps, s.ev = ChunkEvent.ok ∧ 0 < s.size)
    (hrc : ¬ env.rc = 0) (hlog : cfg.logEnabled = true) :
    (archive cfg env).outcome = Outcome.raised (Fault.http500 serverErrText) ∧
    (archive cfg env).respText = some serverErrText ∧
    LogEntry.zipFailed env.rc env.stderrText ∈ (archive cfg env).logs ∧
    (archive cfg env).trace = [Ev.stop [], Ev.stop [], Ev.eof, Ev.stop [],
      Ev.raised (Fault.http500 serverErrText)] ∧
    (archive cfg env).proc = some { returncode := some env.rc, pgid := env.pgid } := by
  have h1 := spawnTry_zipfail cfg env hinj hok hrc
  rw [archive_spawn cfg env hdir, h1]
  refine ⟨rfl, rfl, ?_, by simp, rfl⟩
  simp [logIf, hlog]

/-- Witness for the amended C2 at the concrete failing producer. -/
theorem C2_witness :
    (archive cfg0 envZipFail).respText = some serverErrText ∧
    LogEntry.zipFailed 12 "boom" ∈ (archive cfg0 envZipFail).logs := by
  have h := C2_producer_failure cfg0 envZipFail rfl rfl (by decide) (by decide) rfl
  exact ⟨h.2.1, h.2.2.1⟩

/-- C3: a chunk that finds the client connection closed before the write,
or whose write fails with a reset or broken pipe, stops the relay
immediately (later chunks are ignored), triggers process teardown, and
makes the handler return the response normally; all such cases behave
identically except for log wording. -/
theorem C3_disconnect (cfg : Config) (env : HandlerEnv) (pre : List ChunkStep)
    (n : Nat) (e e' : ChunkEvent) (rest rest' : List ChunkStep)
    (hdir : env.fsIsDir (joinPath cfg.photosPath env.archiveHash) = true)
    (hinj : injected env.queryRaise = none)
    (hpre : ∀ s ∈ pre, s.ev = ChunkEvent.ok ∧ 0 < s.size)
    (hn : 0 < n) (he : isDisconnect e) (he' : isDisconnect e') :
    (archive cfg { env with steps := pre ++ ChunkStep.mk n e :: rest }).outcome
      = Outcome.ret ∧
    (archive cfg { env with steps := pre ++ ChunkStep.mk n e :: rest }).written
      = pre.map ChunkStep.size ∧
    (∃ a, a ≠ [] ∧
      (archive cfg { env with steps := pre ++ ChunkStep.mk n e :: rest }).trace
        = [Ev.stop a, Ev.eof, Ev.stop [], Ev.ret]) ∧
    core (archive cfg { env with steps := pre ++ ChunkStep.mk n e :: rest })
      = core (archive cfg { env with steps := pre ++ ChunkStep.mk n e' :: rest' }) := by
  obtain ⟨lgs, h1⟩ := spawnTry_disc cfg { env with steps := pre ++ ChunkStep.mk n e :: rest }
    pre n e rest hinj hpre hn he rfl
  obtain ⟨lgs2, h2⟩ := spawnTry_disc cfg { env with steps := pre ++ ChunkStep.mk n e' :: rest' }
    pre n e' rest' hinj hpre hn he' rfl
  have A1 := archive_spawn cfg { env with steps := pre ++ ChunkStep.mk n e :: rest } hdir
  have A2 := archive_spawn cfg { env with steps := pre ++ ChunkStep.mk n e' :: rest' } hdir
  have hne : (stop_zip env.stopEnv { returncode := none, pgid := env.pgid } graceDefault).1
      ≠ [] := by
    rw [stop_zip_running_acts env.stopEnv _ graceDefault rfl]
    exact List.cons_ne_nil _ _
  refine ⟨?_, ?_,
    ⟨(stop_zip env.stopEnv { returncode := none, pgid := env.pgid } graceDefault).1, hne, ?_⟩,
    ?_⟩
  · rw [A1, h1]
  · rw [A1, h1]
    simp [stepPre, foldl_okStep_written, LoopSt.init]
  · rw [A1, h1]
    simp
  · rw [A1, h1, A2, h2]
    simp [core]

/-- Witness for C3 at a concrete run: one relayed chunk, then a write
that fails with a reset connection. -/
theorem C3_witness :
    (archive cfg0 envPartial).outcome = Outcome.ret ∧
    (archive cfg0 envPartial).written = [3] := by
  have h := C3_disconnect cfg0 env0 [ChunkStep.mk 3 ChunkEvent.ok] 5
    ChunkEvent.writeReset ChunkEvent.transportClosed [] [] rfl rfl
    (by decide) (by decide) (Or.inr (Or.inl rfl)) (Or.inl rfl)
  exact ⟨h.1, h.2.1⟩

/-- C4 counterexample: on a disconnect at the very first five-byte chunk,
nothing has been written to the response, yet the byte counter already
holds 5 — refuting the claim that the counter is increased only after a
successful write and counts only bytes actually sent. -/
theorem C4_counterexample :
    (archive cfg0 envDisc).outcome = Outcome.ret ∧
    (archive cfg0 envDisc).written = [] ∧
    (archive cfg0 envDisc).total = 5 ∧
    ¬ (archive cfg0 envDisc).total = ((archive cfg0 envDisc).written).sum := by
  refine ⟨?_, ?_, ?_, ?_⟩ <;> decide

/-- C4 (amended): the byte counter is increased by each chunk's length
immediately after the chunk is read, before the pacing pause, the
connection check, and the write; on a disconnect path it therefore equals
the bytes actually written plus the length of the final, unwritten
chunk. -/
theorem C4_counter (cfg : Config) (env : HandlerEnv) (pre : List ChunkStep)
    (n : Nat) (e : ChunkEvent) (rest : List ChunkStep)
    (hdir : env.fsIsDir (joinPath cfg.photosPath env.archiveHash) = true)
    (hinj : injected env.queryRaise = none)
    (hpre : ∀ s ∈ pre, s.ev = ChunkEvent.ok ∧ 0 < s.size)
    (hn : 0 < n) (he : isDisconnect e)
    (hsteps : env.steps = pre ++ ChunkStep.mk n e :: rest) :
    (archive cfg env).total = (pre.map ChunkStep.size).sum + n ∧
    (archive cfg env).written = pre.map ChunkStep.size := by
  obtain ⟨lgs, h1⟩ := spawnTry_disc cfg env pre n e rest hinj hpre hn he hsteps
  rw [archive_spawn cfg env hdir, h1]
  constructor
  · simp [stepPre, foldl_okStep_total, LoopSt.init]
  · simp [stepPre, foldl_okStep_written, LoopSt.init]

/-- Witness for the amended C4: after one three-byte chunk is written, a
five-byte chunk hits a reset connection; the counter holds 8 while only
3 bytes were written. -/
theorem C4_witness :
    (archive cfg0 envPartial).total = 8 ∧ (archive cfg0 envPartial).written = [3] := by
  have h := C4_counter cfg0 envPartial [ChunkStep.mk 3 ChunkEvent.ok] 5
    ChunkEvent.writeReset [] rfl rfl (by decide) (by decide)
    (Or.inr (Or.inl rfl)) rfl
  refine ⟨?_, ?_⟩
  · have := h.1
    simpa using this
  · have := h.2
    simpa using this

/-- C6: on every abnormal termination — handler cancellation, an injected
fault of either class, or any other error raised in the loop — process
teardown runs first (a non-empty stop invocation precedes the raise in
the trace) and then the original fault is re-raised unchanged. -/
theorem C6_fault_teardown (cfg : Config) (env : HandlerEnv) (pre : List ChunkStep)
    (n : Nat) (e : ChunkEvent) (rest : List ChunkStep) (f : Fault)
    (hdir : env.fsIsDir (joinPath cfg.photosPath env.archiveHash) = true)
    (hcase : injected env.queryRaise = some f ∨
      (injected env.queryRaise = none ∧ env.steps = pre ++ ChunkStep.mk n e :: rest ∧
        (∀ s ∈ pre, s.ev = ChunkEvent.ok ∧ 0 < s.size) ∧ 0 < n ∧ faultOf e = some f)) :
    (archive cfg env).outcome = Outcome.raised f ∧
    ∃ a, a ≠ [] ∧
      (archive cfg env).trace = [Ev.stop a, Ev.eof, Ev.stop [], Ev.raised f] := by
  have hne : (stop_zip env.stopEnv { returncode := none, pgid := env.pgid } graceDefault).1
      ≠ [] := by
    rw [stop_zip_running_acts env.stopEnv _ graceDefault rfl]
    exact List.cons_ne_nil _ _
  rcases hcase with hinj | ⟨hinj, hsteps, hpre, hn, hf⟩
  · rw [archive_spawn cfg env hdir, spawnTry_injected cfg env f hinj]
    exact ⟨rfl,
      ⟨(stop_zip env.stopEnv { returncode := none, pgid := env.pgid } graceDefault).1,
        hne, by simp [handleFault]⟩⟩
  · rw [archive_spawn cfg env hdir,
      spawnTry_loopFault cfg env pre n e rest f hinj hpre hn hf hsteps]
    exact ⟨rfl,
      ⟨(stop_zip env.stopEnv { returncode := none, pgid := env.pgid } graceDefault).1,
        hne, by simp [handleFault]⟩⟩

/-- Witness for C6 at the injected `IndexError`. -/
theorem C6_witness :
    (archive cfg0 envInj).outcome
      = Outcome.raised (Fault.exc "Injected IndexError for testing") ∧
    ∃ a, a ≠ [] ∧ (archive cfg0 envInj).trace
      = [Ev.stop a, Ev.eof, Ev.stop [],
         Ev.raised (Fault.exc "Injected IndexError for testing")] :=
  C6_fault_teardown cfg0 envInj [] 0 ChunkEvent.ok []
    (Fault.exc "Injected IndexError for testing") rfl (Or.inl (by decide))

/-- C9: the effective rate is the static default unless the request's
numeric pacing parameter overrides it; when positive, each chunk is
preceded by a pause of exactly `size / (rate * 1024)` seconds, and a
non-positive rate (including a negative override) produces no pacing. -/
theorem C9_pacing (cfg : Config) (env : HandlerEnv)
    (hdir : env.fsIsDir (joinPath cfg.photosPath env.archiveHash) = true)
    (hinj : injected env.queryRaise = none)
    (hok : ∀ s ∈ env.steps, s.ev = ChunkEvent.ok ∧ 0 < s.size) :
    (∀ v, env.queryKbps = some (some v) →
      effectiveKbps cfg.throttleKbps env.queryKbps = v) ∧
    (0 < effectiveKbps cfg.throttleKbps env.queryKbps →
      (archive cfg env).sleeps = env.steps.map
        (fun s => (s.size : ℚ) / (effectiveKbps cfg.throttleKbps env.queryKbps * 1024))) ∧
    (effectiveKbps cfg.throttleKbps env.queryKbps ≤ 0 →
      (archive cfg env).sleeps = []) := by
  have hsl : (archive cfg env).sleeps =
      if 0 < effectiveKbps cfg.throttleKbps env.queryKbps then
        env.steps.map
          (fun s => (s.size : ℚ) / (effectiveKbps cfg.throttleKbps env.queryKbps * 1024))
      else [] := by
    by_cases hrc : env.rc = 0
    · rw [archive_spawn cfg env hdir, spawnTry_success cfg env hinj hok hrc]
      simp [okLoopSt, foldl_okStep_sleeps, LoopSt.init]
    · rw [archive_spawn cfg env hdir, spawnTry_zipfail cfg env hinj hok hrc]
      simp [okLoopSt, foldl_okStep_sleeps, LoopSt.init]
  refine ⟨?_, ?_, ?_⟩
  · intro v hv
    rw [hv]
    rfl
  · intro h
    rw [hsl, if_pos h]
  · intro h
    rw [hsl, if_neg (not_lt.mpr h)]

/-- Witness for C9: a `kbps=8` override paces a full 64 KiB chunk. -/
theorem C9_witness :
    (archive cfg0 envKbps).sleeps = [(65536 : ℚ) / (8 * 1024)] := by
  have h := (C9_pacing cfg0 envKbps rfl rfl (by decide)).2.1 (by decide)
  simpa [effectiveKbps] using h

end Server
